import Mathlib

/-!
Shallow embedding of the django-core-auth-setup repository:
response envelopes and exception classification
(dolphin_v3/response/mixins.py), permission resolution and the
view-level permission gate (dolphin_v3/users/permissions.py),
soft-delete model mixins (common-core/models/mixins.py), the CRUD
destroy action (dolphin_v3/views/mixins.py), and token generation
(common-core/auth/utils.py).
-/

/-- Standardized response envelope produced by ResponseHandlerMixin.
`errors` is the optional `errors` key, `data` the optional `data` key. -/
structure Resp where
  success : Bool
  message : String
  errors : Option String
  data : Option String
  status_code : Nat
deriving DecidableEq, Repr

/-- Embeds `ResponseHandlerMixin.success_response`. -/
def successResponse (data : Option String) (message : String) (statusCode : Nat) : Resp :=
  { success := true, message := message, errors := none, data := data, status_code := statusCode }

/-- Embeds `ResponseHandlerMixin.error_response`. -/
def errorResponse (errors : Option String) (message : String) (statusCode : Nat) : Resp :=
  { success := false, message := message, errors := errors, data := none, status_code := statusCode }

/-- Exception types dispatched by exact type in
`ResponseHandlerMixin.exception_response`; payloads are the textual
detail/description the handlers read off the exception. The
`rest_framework.exceptions.ValidationError` and
`serializers.ValidationError` dictionary keys are one and the same
Python class, so they are one constructor here. `other` stands for
any exception type absent from the dispatch table. -/
inductive Exc where
  | validationError (detail : String)
  | permissionDenied
  | objectDoesNotExist
  | http404
  | notFound
  | multipleObjectsReturned
  | permissionError
  | timeoutError
  | connectionError
  | valueError (s : String)
  | typeError (s : String)
  | keyError (k : String)
  | indexError (s : String)
  | attributeError (s : String)
  | integrityError (s : String)
  | databaseError (s : String)
  | operationalError (s : String)
  | authenticationFailed (detail : String)
  | methodNotAllowed (detail : String)
  | throttled (detail : String)
  | other (desc : String)
deriving DecidableEq, Repr

/-- Embeds `ResponseHandlerMixin.exception_response`: look the exact
exception type up in the handler table and fall back to a generic 500
carrying the exception text. -/
def exceptionResponse (exc : Exc) (message : Option String) : Resp :=
  match exc with
  | .validationError d => errorResponse (some d) (message.getD "Validation Error") 400
  | .permissionDenied => errorResponse none (message.getD "Permission Denied") 403
  | .objectDoesNotExist => errorResponse none (message.getD "Resource Not Found") 404
  | .http404 => errorResponse none (message.getD "Resource Not Found") 404
  | .notFound => errorResponse none (message.getD "Resource Not Found") 404
  | .multipleObjectsReturned =>
      errorResponse none (message.getD "Multiple objects found when one was expected") 409
  | .permissionError => errorResponse none (message.getD "Permission Error") 403
  | .timeoutError => errorResponse none (message.getD "Request Timeout") 504
  | .connectionError => errorResponse none (message.getD "Connection Error") 503
  | .valueError s => errorResponse (some s) (message.getD "Invalid Value") 500
  | .typeError s => errorResponse (some s) (message.getD "Type Error") 500
  | .keyError k => errorResponse (some ("Missing key: " ++ k)) (message.getD "Key Error") 500
  | .indexError s => errorResponse (some s) (message.getD "Index Error") 500
  | .attributeError s => errorResponse (some s) (message.getD "Attribute Error") 500
  | .integrityError s => errorResponse (some s) (message.getD "Database Integrity Error") 409
  | .databaseError s => errorResponse (some s) (message.getD "Database Error") 500
  | .operationalError s =>
      errorResponse (some s) (message.getD "Database Operational Error") 500
  | .authenticationFailed d =>
      errorResponse (some d) (message.getD "Authentication Failed") 401
  | .methodNotAllowed d => errorResponse (some d) (message.getD "Method Not Allowed") 405
  | .throttled d => errorResponse (some d) (message.getD "Request Throttled") 429
  | .other desc => errorResponse none (message.getD ("Internal Server Error: " ++ desc)) 500

/-- C1: every exception handed to exception_response yields an envelope
with success=false, and the status code follows the classification
table: validation goes to 400 with the detail under errors,
permission-denied faults to 403, not-found kinds to 404,
conflict/duplicate kinds to 409, timeout to 504, connectivity to 503,
and a type not in the table to 500 with the description in the message. -/
theorem C1_exception_classification (e : Exc) :
    (exceptionResponse e none).success = false ∧
    (match e with
     | .validationError d =>
         (exceptionResponse e none).status_code = 400 ∧
         (exceptionResponse e none).errors = some d
     | .permissionDenied => (exceptionResponse e none).status_code = 403
     | .permissionError => (exceptionResponse e none).status_code = 403
     | .objectDoesNotExist => (exceptionResponse e none).status_code = 404
     | .http404 => (exceptionResponse e none).status_code = 404
     | .notFound => (exceptionResponse e none).status_code = 404
     | .multipleObjectsReturned => (exceptionResponse e none).status_code = 409
     | .integrityError _ => (exceptionResponse e none).status_code = 409
     | .timeoutError => (exceptionResponse e none).status_code = 504
     | .connectionError => (exceptionResponse e none).status_code = 503
     | .other desc =>
         (exceptionResponse e none).status_code = 500 ∧
         (exceptionResponse e none).message = "Internal Server Error: " ++ desc
     | _ => True) := by
  cases e <;> simp [exceptionResponse, errorResponse]

/-- Django Group, named UserGroup since Lean already uses `Group`:
only the permission codenames matter here
(`group.permissions.filter(codename=...).exists()`). -/
structure UserGroup where
  permissions : List String
deriving DecidableEq, Repr

/-- Django User as read by PermissionUtils: id, superuser flag, groups. -/
structure User where
  id : Nat
  is_superuser : Bool
  groups : List UserGroup
deriving DecidableEq, Repr

/-- Redis client behaviour during one run: `get` either raises
(`Except.error`) or returns a possibly absent boolean; `set` either
raises or succeeds. -/
structure Cache where
  get : String → Except Unit (Option Bool)
  set : String → Bool → Nat → Except Unit Unit

/-- Cache that raises on every get and on every set. -/
def failingCache : Cache :=
  { get := fun _ => .error (), set := fun _ _ _ => .error () }

/-- Cache that is operational and holds nothing. -/
def emptyCache : Cache :=
  { get := fun _ => .ok none, set := fun _ _ _ => .ok () }

/-- Side effects observable in one PermissionUtils.has_permission run:
a cache read attempt, a scan of the user's groups, a cache write
attempt of a value with a TTL. -/
inductive Event where
  | cacheGet (key : String)
  | groupScan
  | cacheSet (key : String) (value : Bool) (ttl : Nat)
deriving DecidableEq, Repr

/-- Valid action names, the keys of `self.actions`. -/
def validActions : List String := ["view", "add", "change", "delete"]

/-- Cache key `user_perm:{user.id}:{model_name.lower()}:{action}`. -/
def cacheKey (u : User) (modelName action : String) : String :=
  "user_perm:" ++ toString u.id ++ ":" ++ modelName.toLower ++ ":" ++ action

/-- Embeds `PermissionUtils.has_permission`. An invalid action raises
ValueError (`Except.error`); a superuser is granted before any cache or
database access; otherwise a cache read is attempted with errors treated
as a miss, a hit is returned verbatim, and on a miss the groups are
scanned once and the result written back with TTL 300, write errors
swallowed. The event list records the side effects of the run. -/
def hasPermission (cache : Cache) (u : User) (modelName action : String) :
    Except String (Bool × List Event) :=
  if action ∉ validActions then
    .error ("Invalid action: " ++ action)
  else if u.is_superuser then
    .ok (true, [])
  else
    let key := cacheKey u modelName action
    let cached : Option Bool :=
      match cache.get key with
      | .error _ => none
      | .ok v => v
    match cached with
    | some v => .ok (v, [.cacheGet key])
    | none =>
      let required := action ++ "_" ++ modelName
      let hasPerm := u.groups.any fun g => g.permissions.contains required
      let _ := cache.set key hasPerm 300
      .ok (hasPerm, [.cacheGet key, .groupScan, .cacheSet key hasPerm 300])

/-- Authorization outcome alone, discarding the event log. -/
def permOutcome (cache : Cache) (u : User) (modelName action : String) :
    Except String Bool :=
  (hasPermission cache u modelName action).map Prod.fst

/-- C3: for a non-superuser and a valid action, a run in which every
cache get and set raises returns the same boolean, without failing, as
a run against an empty operational cache. -/
theorem C3_cache_fault_tolerance (u : User) (m a : String)
    (hsu : u.is_superuser = false) (ha : a ∈ validActions) :
    ∃ b : Bool,
      permOutcome failingCache u m a = .ok b ∧
      permOutcome emptyCache u m a = .ok b := by
  refine ⟨u.groups.any fun g => g.permissions.contains (a ++ "_" ++ m), ?_, ?_⟩ <;>
    simp [permOutcome, hasPermission, ha, hsu, failingCache, emptyCache, Except.map]

/-- C3 witness. -/
theorem C3_cache_fault_tolerance_witness :
    ∃ b : Bool,
      permOutcome failingCache ⟨4, false, [⟨["view_invoice"]⟩]⟩ "Invoice" "view" = .ok b ∧
      permOutcome emptyCache ⟨4, false, [⟨["view_invoice"]⟩]⟩ "Invoice" "view" = .ok b :=
  C3_cache_fault_tolerance ⟨4, false, [⟨["view_invoice"]⟩]⟩ "Invoice" "view"
    (by decide) (by decide)

/-- C4: for a non-superuser and a valid action, when the cache get for
the deterministic key returns a present value, has_permission returns
that value verbatim and the run consults no group data: its only side
effect is the one cache read. -/
theorem C4_cache_hit_verbatim (cache : Cache) (u : User) (m a : String) (v : Bool)
    (hsu : u.is_superuser = false) (ha : a ∈ validActions)
    (hget : cache.get (cacheKey u m a) = .ok (some v)) :
    hasPermission cache u m a = .ok (v, [.cacheGet (cacheKey u m a)]) := by
  simp [hasPermission, ha, hsu, hget]

/-- C4 witness. -/
theorem C4_cache_hit_verbatim_witness :
    hasPermission
      { get := fun _ => .ok (some false), set := fun _ _ _ => .ok () }
      ⟨4, false, [⟨["view_invoice"]⟩]⟩ "Invoice" "view" =
      .ok (false, [.cacheGet (cacheKey ⟨4, false, [⟨["view_invoice"]⟩]⟩ "Invoice" "view")]) :=
  C4_cache_hit_verbatim
    { get := fun _ => .ok (some false), set := fun _ _ _ => .ok () }
    ⟨4, false, [⟨["view_invoice"]⟩]⟩ "Invoice" "view" false
    (by decide) (by decide) rfl

/-- C5 counterexample: a superuser calling has_permission with an action
outside the four valid ones is not granted; the call raises ValueError
before the superuser short-circuit is reached. -/
theorem C5_counterexample :
    hasPermission emptyCache ⟨1, true, []⟩ "Invoice" "foo" =
      .error "Invalid action: foo" ∧
    hasPermission emptyCache ⟨1, true, []⟩ "Invoice" "foo" ≠
      .ok (true, []) := by
  constructor
  · rfl
  · intro h
    rw [show hasPermission emptyCache ⟨1, true, []⟩ "Invoice" "foo" =
          Except.error "Invalid action: foo" from rfl] at h
    exact Except.noConfusion h

/-- C5 amended: for a superuser and a valid action, has_permission
returns allowed with no cache read, no cache write, and no group scan
(the event log of the run is empty). -/
theorem C5_superuser_short_circuit (cache : Cache) (u : User) (m a : String)
    (hsu : u.is_superuser = true) (ha : a ∈ validActions) :
    hasPermission cache u m a = .ok (true, []) := by
  simp [hasPermission, ha, hsu]

/-- C5 witness. -/
theorem C5_superuser_short_circuit_witness :
    hasPermission failingCache ⟨1, true, []⟩ "Invoice" "delete" = .ok (true, []) :=
  C5_superuser_short_circuit failingCache ⟨1, true, []⟩ "Invoice" "delete"
    (by decide) (by decide)

/-- C6: for a non-superuser, a valid action, and a cache miss, the run
performs exactly one cache read, one group scan, and one cache write of
the computed boolean under the deterministic key with TTL 300, and the
boolean is true exactly when some group holds the codename
`action_entitytype`. -/
theorem C6_cache_miss_computation (cache : Cache) (u : User) (m a : String)
    (hsu : u.is_superuser = false) (ha : a ∈ validActions)
    (hget : cache.get (cacheKey u m a) = .ok none) :
    ∃ b : Bool,
      hasPermission cache u m a =
        .ok (b, [.cacheGet (cacheKey u m a), .groupScan,
                 .cacheSet (cacheKey u m a) b 300]) ∧
      (b = true ↔ ∃ g ∈ u.groups, (a ++ "_" ++ m) ∈ g.permissions) := by
  refine ⟨u.groups.any fun g => g.permissions.contains (a ++ "_" ++ m), ?_, ?_⟩
  · simp [hasPermission, ha, hsu, hget]
  · simp [List.any_eq_true]

/-- C6 witness. -/
theorem C6_cache_miss_computation_witness :
    ∃ b : Bool,
      hasPermission emptyCache ⟨4, false, [⟨["add_invoice"]⟩]⟩ "Invoice" "add" =
        .ok (b, [.cacheGet (cacheKey ⟨4, false, [⟨["add_invoice"]⟩]⟩ "Invoice" "add"),
                 .groupScan,
                 .cacheSet (cacheKey ⟨4, false, [⟨["add_invoice"]⟩]⟩ "Invoice" "add") b 300]) ∧
      (b = true ↔ ∃ g ∈ (⟨4, false, [⟨["add_invoice"]⟩]⟩ : User).groups,
          ("add" ++ "_" ++ "Invoice") ∈ g.permissions) :=
  C6_cache_miss_computation emptyCache ⟨4, false, [⟨["add_invoice"]⟩]⟩ "Invoice" "add"
    (by decide) (by decide) rfl

/-- Identity attached to the inbound request: AnonymousUser (or a falsy
user) versus an authenticated Django user. -/
inductive ReqUser where
  | anonymous
  | authenticated (u : User)

/-- Inbound request as read by CustomPermissionClass: its user and its
HTTP method string. -/
structure Request where
  user : ReqUser
  method : String

/-- View as read by CustomPermissionClass: the model name discovered
from `get_queryset`/`queryset`, or none when the view exposes neither
(ImproperlyConfigured). -/
structure View where
  model : Option String

/-- HTTP method to action key mapping, the `method_action` dictionary. -/
def methodAction (m : String) : Option String :=
  if m = "GET" then some "view"
  else if m = "POST" then some "add"
  else if m = "PUT" then some "change"
  else if m = "PATCH" then some "change"
  else if m = "DELETE" then some "delete"
  else none

/-- Embeds `CustomPermissionClass.has_permission`: deny anonymous or
falsy users, allow OPTIONS and HEAD, allow superusers, resolve the model
from the view (raising ImproperlyConfigured when absent), map the method
to an action key (denying unmapped methods), and delegate to
PermissionUtils.has_permission, propagating its exceptions. -/
def customHasPermission (cache : Cache) (req : Request) (view : View) :
    Except String Bool :=
  match req.user with
  | .anonymous => .ok false
  | .authenticated u =>
    if req.method = "OPTIONS" ∨ req.method = "HEAD" then .ok true
    else if u.is_superuser then .ok true
    else
      match view.model with
      | none => .error "CustomPermissionClass requires a queryset on the view."
      | some modelName =>
        match methodAction req.method.toUpper with
        | none => .ok false
        | some actionKey =>
          match hasPermission cache u modelName actionKey with
          | .error e => .error e
          | .ok (b, _) => .ok b

/-- C2 counterexample: an OPTIONS request carrying no authenticated user
is denied, not allowed, because the anonymous-user check runs before the
OPTIONS/HEAD allowance. -/
theorem C2_counterexample :
    customHasPermission emptyCache ⟨.anonymous, "OPTIONS"⟩ ⟨none⟩ = .ok false ∧
    customHasPermission emptyCache ⟨.anonymous, "OPTIONS"⟩ ⟨none⟩ ≠ .ok true := by
  constructor
  · rfl
  · intro h
    rw [show customHasPermission emptyCache ⟨.anonymous, "OPTIONS"⟩ ⟨none⟩ =
          Except.ok false from rfl] at h
    simp at h

/-- C2 amended: an OPTIONS or HEAD request carrying an authenticated
user is allowed, whatever the cache, the view, the superuser flag, and
the group permissions. -/
theorem C2_preflight_allowed (cache : Cache) (u : User) (view : View) (m : String)
    (hm : m = "OPTIONS" ∨ m = "HEAD") :
    customHasPermission cache ⟨.authenticated u, m⟩ view = .ok true := by
  simp [customHasPermission, hm]

/-- C2 witness. -/
theorem C2_preflight_allowed_witness :
    customHasPermission failingCache ⟨.authenticated ⟨9, false, []⟩, "HEAD"⟩ ⟨none⟩ =
      .ok true :=
  C2_preflight_allowed failingCache ⟨9, false, []⟩ ⟨none⟩ "HEAD" (Or.inr rfl)

/-- Soft-delete fields of a record using SoftDeleteModelMixin; field
defaults follow the model definition (is_deleted=False, timestamps and
user references null). Timestamps and user ids are naturals. -/
structure Record where
  is_deleted : Bool
  deleted_at : Option Nat
  restored_at : Option Nat
  deleted_by : Option Nat
  restored_by : Option Nat
deriving DecidableEq, Repr

/-- Record with the model's default field values. -/
def defaultRecord : Record :=
  { is_deleted := false, deleted_at := none, restored_at := none,
    deleted_by := none, restored_by := none }

/-- Embeds `SoftDeleteModelMixin.delete`: set the flag and the deletion
timestamp to the current time `t`, and record the acting user when one
is passed. -/
def SoftDeleteModelMixin.delete (r : Record) (t : Nat) (user : Option Nat) : Record :=
  { r with
      is_deleted := true
      deleted_at := some t
      deleted_by := (match user with | some uid => some uid | none => r.deleted_by) }

/-- Embeds `SoftDeleteModelMixin.restore`: clear the flag, set the
restoration timestamp to the current time `t`, and record the acting
user when one is passed. The deletion timestamp is left untouched. -/
def SoftDeleteModelMixin.restore (r : Record) (t : Nat) (user : Option Nat) : Record :=
  { r with
      is_deleted := false
      restored_at := some t
      restored_by := (match user with | some uid => some uid | none => r.restored_by) }

/-- Embeds `SoftDeleteQuerySet.delete` as its per-row effect: the bulk
`update(is_deleted=True, deleted_at=now())`. -/
def SoftDeleteQuerySet.deleteRow (r : Record) (t : Nat) : Record :=
  { r with is_deleted := true, deleted_at := some t }

/-- Embeds `SoftDeleteManager.get_queryset`, the default `objects`
manager: only rows with is_deleted=False are visible. -/
def SoftDeleteManager.get_queryset (table : List Record) : List Record :=
  table.filter fun r => !r.is_deleted

/-- Embeds `all_objects`, the unfiltered queryset over the table. -/
def allObjects (table : List Record) : List Record := table

/-- C7: deleting a record sets is_deleted and deleted_at to the current
time; the deleted record is absent from the default visible set yet
present in the all-records set; restoring it afterwards clears
is_deleted and makes it visible in the default set again. -/
theorem C7_soft_delete_visibility (r : Record) (t t2 : Nat)
    (user u2 : Option Nat) (table : List Record) :
    (SoftDeleteModelMixin.delete r t user).is_deleted = true ∧
    (SoftDeleteModelMixin.delete r t user).deleted_at = some t ∧
    (SoftDeleteModelMixin.delete r t user ∈ table →
      SoftDeleteModelMixin.delete r t user ∉ SoftDeleteManager.get_queryset table) ∧
    (SoftDeleteModelMixin.delete r t user ∈ table →
      SoftDeleteModelMixin.delete r t user ∈ allObjects table) ∧
    (SoftDeleteModelMixin.restore (SoftDeleteModelMixin.delete r t user) t2 u2).is_deleted
      = false ∧
    (SoftDeleteModelMixin.restore (SoftDeleteModelMixin.delete r t user) t2 u2 ∈ table →
      SoftDeleteModelMixin.restore (SoftDeleteModelMixin.delete r t user) t2 u2 ∈
        SoftDeleteManager.get_queryset table) := by
  refine ⟨rfl, rfl, ?_, ?_, rfl, ?_⟩
  · intro hmem hvis
    have := (List.mem_filter.mp hvis).2
    simp [SoftDeleteModelMixin.delete] at this
  · intro hmem
    exact hmem
  · intro hmem
    exact List.mem_filter.mpr ⟨hmem, by simp [SoftDeleteModelMixin.restore]⟩

/-- C7 witness. -/
theorem C7_soft_delete_visibility_witness :
    (SoftDeleteModelMixin.delete defaultRecord 5 (some 7)).is_deleted = true ∧
    SoftDeleteModelMixin.delete defaultRecord 5 (some 7) ∉
      SoftDeleteManager.get_queryset [SoftDeleteModelMixin.delete defaultRecord 5 (some 7)] ∧
    SoftDeleteModelMixin.restore (SoftDeleteModelMixin.delete defaultRecord 5 (some 7)) 6 none ∈
      SoftDeleteManager.get_queryset
        [SoftDeleteModelMixin.restore (SoftDeleteModelMixin.delete defaultRecord 5 (some 7)) 6 none] := by
  refine ⟨(C7_soft_delete_visibility defaultRecord 5 6 (some 7) none []).1, ?_, ?_⟩
  · exact (C7_soft_delete_visibility defaultRecord 5 6 (some 7) none
      [SoftDeleteModelMixin.delete defaultRecord 5 (some 7)]).2.2.1 (by simp)
  · exact (C7_soft_delete_visibility defaultRecord 5 6 (some 7) none
      [SoftDeleteModelMixin.restore (SoftDeleteModelMixin.delete defaultRecord 5 (some 7)) 6 none]).2.2.2.2.2
      (by simp)

/-- Operations of the soft-delete mixin acting on one record: instance
delete, instance restore, and the per-row effect of a bulk queryset
delete. -/
inductive SDOp where
  | instDelete (t : Nat) (user : Option Nat)
  | instRestore (t : Nat) (user : Option Nat)
  | bulkDelete (t : Nat)
deriving DecidableEq, Repr

/-- Applies one soft-delete operation to a record. -/
def applySDOp (r : Record) (op : SDOp) : Record :=
  match op with
  | .instDelete t u => SoftDeleteModelMixin.delete r t u
  | .instRestore t u => SoftDeleteModelMixin.restore r t u
  | .bulkDelete t => SoftDeleteQuerySet.deleteRow r t

/-- Stated invariant of the soft-delete mixin: a deleted record always
carries a deletion timestamp. -/
def softDeleteInvariant (r : Record) : Prop :=
  r.is_deleted = true → (r.deleted_at).isSome = true

instance (r : Record) : Decidable (softDeleteInvariant r) := by
  unfold softDeleteInvariant
  infer_instance

/-- C8: along every sequence of instance deletes, instance restores and
bulk deletes starting from a record satisfying it, the invariant
"is_deleted implies deleted_at is set" is preserved; moreover restore
clears the deleted flag and sets restored_at to the restoration time. -/
theorem C8_soft_delete_invariant (r : Record) (ops : List SDOp)
    (h : softDeleteInvariant r) :
    softDeleteInvariant (ops.foldl applySDOp r) ∧
    ∀ t u, (SoftDeleteModelMixin.restore r t u).is_deleted = false ∧
      (SoftDeleteModelMixin.restore r t u).restored_at = some t := by
  refine ⟨?_, fun t u => ⟨rfl, rfl⟩⟩
  induction ops generalizing r with
  | nil => exact h
  | cons op rest ih =>
    refine ih (applySDOp r op) ?_
    cases op with
    | instDelete t u => intro _; rfl
    | instRestore t u =>
      intro hdel
      simp [applySDOp, SoftDeleteModelMixin.restore] at hdel
    | bulkDelete t => intro _; rfl

/-- C8 witness. -/
theorem C8_soft_delete_invariant_witness :
    softDeleteInvariant
      ([SDOp.instDelete 3 (some 2), SDOp.instRestore 4 none,
        SDOp.bulkDelete 9].foldl applySDOp defaultRecord) ∧
    ∀ t u, (SoftDeleteModelMixin.restore defaultRecord t u).is_deleted = false ∧
      (SoftDeleteModelMixin.restore defaultRecord t u).restored_at = some t :=
  C8_soft_delete_invariant defaultRecord
    [SDOp.instDelete 3 (some 2), SDOp.instRestore 4 none, SDOp.bulkDelete 9]
    (by decide)

/-- Target record of a destroy request as probed by `hasattr`: whether
it carries the soft-delete fields, whether it carries an is_active
flag, and the values of those fields. -/
structure Entity where
  has_is_deleted : Bool
  has_is_active : Bool
  record : Record
  is_active : Bool
deriving DecidableEq, Repr

/-- Embeds `AbstractViewSet.destroy` past `get_object`: soft-delete the
record through the mixin when it has is_deleted (recording the acting
user), else deactivate when it has is_active, else report an error.
The second component is the record after the request; it is `some` in
every branch because no branch removes the row physically. -/
def destroy (ent : Entity) (actingUserId : Nat) (t : Nat) (modelName : String) :
    Resp × Option Entity :=
  if ent.has_is_deleted then
    let ent2 := { ent with record := SoftDeleteModelMixin.delete ent.record t (some actingUserId) }
    (successResponse none (modelName ++ " deleted successfully") 200, some ent2)
  else if ent.has_is_active then
    (successResponse none (modelName ++ " deleted successfully") 200,
      some { ent with is_active := false })
  else
    (errorResponse none (modelName ++ " Couldnt be deleted") 400, some ent)

/-- C9: destroy never removes the record; with soft-delete support the
record is marked deleted with the acting user as deleter and a success
envelope returned; with only an is_active flag the flag is cleared and
a success envelope returned; otherwise an error envelope reports the
failure and the record is untouched. -/
theorem C9_destroy_behaviour (ent : Entity) (uid t : Nat) (name : String) :
    (destroy ent uid t name).2 ≠ none ∧
    (ent.has_is_deleted = true →
      (destroy ent uid t name).1.success = true ∧
      ∃ e2, (destroy ent uid t name).2 = some e2 ∧
        e2.record.is_deleted = true ∧ e2.record.deleted_by = some uid) ∧
    (ent.has_is_deleted = false → ent.has_is_active = true →
      (destroy ent uid t name).1.success = true ∧
      (destroy ent uid t name).2 = some { ent with is_active := false }) ∧
    (ent.has_is_deleted = false → ent.has_is_active = false →
      (destroy ent uid t name).1.success = false ∧
      (destroy ent uid t name).1.message = name ++ " Couldnt be deleted" ∧
      (destroy ent uid t name).2 = some ent) := by
  cases h1 : ent.has_is_deleted <;> cases h3 : ent.has_is_active <;>
    simp [destroy, h1, h3, successResponse, errorResponse, SoftDeleteModelMixin.delete]

/-- C9 witness. -/
theorem C9_destroy_behaviour_witness :
    (destroy ⟨true, false, defaultRecord, true⟩ 7 5 "Invoice").2 ≠ none ∧
    ((destroy ⟨true, false, defaultRecord, true⟩ 7 5 "Invoice").1.success = true ∧
      ∃ e2, (destroy ⟨true, false, defaultRecord, true⟩ 7 5 "Invoice").2 = some e2 ∧
        e2.record.is_deleted = true ∧ e2.record.deleted_by = some 7) := by
  refine ⟨(C9_destroy_behaviour ⟨true, false, defaultRecord, true⟩ 7 5 "Invoice").1, ?_⟩
  exact (C9_destroy_behaviour ⟨true, false, defaultRecord, true⟩ 7 5 "Invoice").2.1 rfl

/-- Lowercase hexadecimal digits. -/
def hexDigits : List Char := "0123456789abcdef".toList

/-- Two lowercase hex characters of one byte. -/
def byteToHexChars (b : Nat) : List Char :=
  [hexDigits.getD (b % 256 / 16) '0', hexDigits.getD (b % 16) '0']

/-- Embeds `secrets.token_hex`: `nbytes` random bytes rendered as two
hex digits each; `rnd i` is the i-th random byte. -/
def token_hex (rnd : Nat → Nat) (nbytes : Nat) : String :=
  String.mk (((List.range nbytes).map fun i => byteToHexChars (rnd i)).flatten)

/-- Embeds `generate_token`: `secrets.token_hex(length // 2)`. -/
def generate_token (rnd : Nat → Nat) (length : Nat) : String :=
  token_hex rnd (length / 2)

/-- Each hex digit lies in the hex alphabet. -/
theorem byteToHexChars_mem (b : Nat) (c : Char) (hc : c ∈ byteToHexChars b) :
    c ∈ hexDigits := by
  have hbound : ∀ n < 16, hexDigits.getD n '0' ∈ hexDigits := by decide
  have hlt1 : b % 256 / 16 < 16 := by omega
  have hlt2 : b % 16 < 16 := by omega
  simp only [byteToHexChars, List.mem_cons, List.not_mem_nil, or_false] at hc
  rcases hc with h | h <;> subst h
  · exact hbound _ hlt1
  · exact hbound _ hlt2

/-- C10: for every positive requested length, generate_token returns a
string of exactly 2*(length / 2) lowercase hex characters, hence an odd
request comes back one character short, and the default length 32
yields exactly 32 characters. -/
theorem C10_generate_token_length (rnd : Nat → Nat) (length : Nat)
    (h : 0 < length) :
    (generate_token rnd length).length = 2 * (length / 2) ∧
    (∀ c ∈ (generate_token rnd length).toList, c ∈ hexDigits) ∧
    (length % 2 = 1 → (generate_token rnd length).length = length - 1) ∧
    (generate_token rnd 32).length = 32 := by
  have hlen : ∀ n, (token_hex rnd n).length = 2 * n := by
    intro n
    induction n with
    | zero => rfl
    | succ k ih =>
      simp only [token_hex, String.length, String.mk] at ih ⊢
      rw [List.range_succ]
      simp [byteToHexChars] at ih ⊢
      omega
  refine ⟨hlen (length / 2), ?_, ?_, ?_⟩
  · intro c hc
    simp only [generate_token, token_hex, String.toList, String.mk] at hc
    simp only [List.mem_flatten, List.mem_map] at hc
    obtain ⟨l, ⟨i, _, hi⟩, hcl⟩ := hc
    exact byteToHexChars_mem (rnd i) c (hi ▸ hcl)
  · intro hodd
    have hl := hlen (length / 2)
    simp only [generate_token]
    omega
  · have hl := hlen (32 / 2)
    simp only [generate_token]
    omega

/-- C10 witness. -/
theorem C10_generate_token_length_witness :
    0 < 7 ∧
    (generate_token (fun _ => 171) 7).length = 2 * (7 / 2) ∧
    (7 % 2 = 1 → (generate_token (fun _ => 171) 7).length = 7 - 1) := by
  have h := C10_generate_token_length (fun _ => 171) 7 (by decide)
  exact ⟨by decide, h.1, h.2.2.1⟩
